import Mathlib

/-!
Verification of the document-rendering core of the Billing-Software backend
(src/services/pdf.service.js and src/unnamed/part_003 = utils/currency.js).

The JavaScript functions are shallowly embedded as executable Lean
definitions: strings are lists of characters (wrapped in String at the
interfaces), regex-based operations are spelled out as explicit character
scans matching the semantics of the concrete regular expressions used in
the source, and the stateful rendering pipeline is modelled as explicit
state passing with environment-injected attempt outcomes.
-/

namespace Billing

/-! ## Character classes (JS regex classes used by pdf.service.js) -/

/-- JS whitespace class for the purposes of the regexes in the source
(space, tab, newline, carriage return, vertical tab, form feed). -/
def charWs (c : Char) : Bool :=
  c = ' ' || c = '\t' || c = '\n' || c = '\r' || c = '\x0b' || c = '\x0c'

/-- Decimal digit, the JS regex class d. -/
def charDigit (c : Char) : Bool :=
  '0' ≤ c && c ≤ '9'

/-- The character class of the edge-stripping regex in the array branch and
string branch of processTermsAndConditions: double quote, single quote,
and square brackets. -/
def edgeQB (c : Char) : Bool :=
  c = '"' || c = '\'' || c = '[' || c = ']'

/-- The character class of the final-cleanup edge regex: double quote,
single quote, comma, and whitespace. -/
def edgeFC (c : Char) : Bool :=
  c = '"' || c = '\'' || c = ',' || charWs c

/-! ## Generic string helpers over lists of characters -/

/-- Does the list start with the given pattern? -/
def startsL (pat l : List Char) : Bool :=
  match pat, l with
  | [], _ => true
  | _ :: _, [] => false
  | p :: ps, c :: cs => p = c && startsL ps cs

/-- Does the list contain the pattern as a contiguous sublist? -/
def hasSubL (pat : List Char) : List Char → Bool
  | [] => startsL pat []
  | c :: rest => startsL pat (c :: rest) || hasSubL pat rest

/-- Fueled global replacement of a literal pattern, scanning left to right
without overlap, exactly as a JS global replace of a literal regex does. -/
def replSubAux (pat rep : List Char) : Nat → List Char → List Char
  | _, [] => []
  | 0, l => l
  | fuel + 1, c :: rest =>
    if startsL pat (c :: rest) && pat.length ≠ 0 then
      rep ++ replSubAux pat rep fuel (List.drop pat.length (c :: rest))
    else
      c :: replSubAux pat rep fuel rest

/-- Global replacement of a literal pattern. -/
def replSubL (pat rep l : List Char) : List Char :=
  replSubAux pat rep l.length l

/-- Remove the maximal run of class characters at the start and then at the
end of the string: the effect of a global JS replace of a regex of the
shape caret-class-plus alternated with class-plus-dollar. -/
def stripRuns (p : Char → Bool) (l : List Char) : List Char :=
  List.rdropWhile p (List.dropWhile p l)

/-- One step of whitespace collapsing, used below in a right fold. -/
def collapseStep (c : Char) (acc : List Char) : List Char :=
  if charWs c then
    match acc with
    | a :: rest => if a = ' ' then a :: rest else ' ' :: a :: rest
    | [] => [' ']
  else c :: acc

/-- Replace every maximal whitespace run by a single space: the JS global
replace of whitespace-plus with a space. -/
def collapseWs (l : List Char) : List Char :=
  l.foldr collapseStep []

/-- JS String.prototype.trim on the modelled whitespace class. -/
def trimJs (l : List Char) : List Char :=
  stripRuns charWs l

/-! ## The numbered-marker regexes of processTermsAndConditions -/

/-- Does the string contain the pattern digits-then-period anywhere?  The
regex digits-plus-period matches iff some digit is immediately followed
by a period. -/
def hasMarker : List Char → Bool
  | c1 :: c2 :: rest => (charDigit c1 && c2 = '.') || hasMarker (c2 :: rest)
  | _ => false

/-- Length of the greedy match of the split regex
(whitespace-star digits-plus period whitespace-star) at the head of the
list, if it matches there. -/
def matchAtM (l : List Char) : Option Nat :=
  let w := (l.takeWhile charWs).length
  let l1 := l.drop w
  let d := (l1.takeWhile charDigit).length
  if d = 0 then none
  else
    match l1.drop d with
    | '.' :: rest2 => some (w + d + 1 + (rest2.takeWhile charWs).length)
    | _ => none

/-- Leftmost match of the split regex: start index and length. -/
def findM : List Char → Option (Nat × Nat)
  | [] => none
  | c :: rest =>
    match matchAtM (c :: rest) with
    | some len => some (0, len)
    | none => (findM rest).map (fun p => (p.1 + 1, p.2))

/-- Fueled splitting on the numbered-marker regex, mirroring JS
String.prototype.split with that regex (keeps empty segments). -/
def splitAux : Nat → List Char → List (List Char)
  | 0, l => [l]
  | fuel + 1, l =>
    match findM l with
    | none => [l]
    | some (i, len) => l.take i :: splitAux fuel (l.drop (i + len))

/-- Split a string on all occurrences of the numbered-marker regex. -/
def splitMarkers (l : List Char) : List (List Char) :=
  splitAux (l.length + 1) l

/-! ## TermsNormalizer: the array branch of processTermsAndConditions -/

/-- Per-element cleaning of the array branch: strip surrounding
quote/bracket runs, un-escape embedded quotes, trim. -/
def cleanArrTerm (t : List Char) : List Char :=
  trimJs (replSubL ['\\', '"'] ['"'] (stripRuns edgeQB t))

/-- Contribution of one array element: skipped when blank, otherwise
cleaned and, when it contains a numbered marker and splits into more than
one segment, the segments after the first (the source unconditionally
slices off the first segment) trimmed and filtered non-empty. -/
def termContribution (t : List Char) : List (List Char) :=
  if (trimJs t).length > 0 then
    let c := cleanArrTerm t
    if hasMarker c then
      let parts := splitMarkers c
      if parts.length > 1 then
        ((parts.drop 1).map trimJs).filter (fun x => x.length > 0)
      else [c]
    else [c]
  else []

/-- Final cleanup applied to every produced term: strip quote/comma/space
runs from the edges, collapse internal whitespace, trim. -/
def finalClean (t : List Char) : List Char :=
  trimJs (collapseWs (stripRuns edgeFC t))

/-- The array branch of processTermsAndConditions from pdf.service.js:
per-element cleaning and numbered-marker splitting, flattened, followed by
the final cleanup pass that drops empty terms. -/
def processTermsAndConditions (terms : List String) : List String :=
  (((((terms.map String.data).map termContribution).flatten).map finalClean).filter
      (fun t => t.length > 0)).map (fun l => String.mk l)

/-! ## Pagination heuristic -/

/-- shouldBreakPage from generateHTML: keep terms on the first page when
the item count is at most 8, force a new page otherwise. -/
def shouldBreakPage (itemCount : Nat) : Bool :=
  if itemCount ≤ 8 then false else true

/-- The css class generateHTML places on the terms section. -/
def termsSectionClass (itemCount : Nat) : String :=
  if shouldBreakPage itemCount then "new-page" else ""

/-! ## CurrencyFormatter: formatCurrency of pdf.service.js

Amounts are modelled as Option of a rational: none models a value whose
Number conversion is NaN, some q a finite numeric value. -/

/-- One entry of the currency configuration table. -/
structure CurrencyCfg where
  symbol : String
  cname : String
  posLeft : Bool
  spacing : Bool
deriving DecidableEq, Repr

/-- The static currency configuration table of the PDFService constructor. -/
def currencies : List (String × CurrencyCfg) :=
  [ ("USD", ⟨"$", "US Dollar", true, false⟩)
  , ("EUR", ⟨"€", "Euro", false, true⟩)
  , ("GBP", ⟨"£", "British Pound", true, false⟩)
  , ("JPY", ⟨"¥", "Japanese Yen", true, false⟩)
  , ("AUD", ⟨"A$", "Australian Dollar", true, false⟩)
  , ("CAD", ⟨"C$", "Canadian Dollar", true, false⟩)
  , ("CHF", ⟨"Fr", "Swiss Franc", false, true⟩)
  , ("CNY", ⟨"¥", "Chinese Yuan", true, false⟩)
  , ("SEK", ⟨"kr", "Swedish Krona", false, true⟩)
  , ("NZD", ⟨"NZ$", "New Zealand Dollar", true, false⟩)
  , ("MXN", ⟨"$", "Mexican Peso", true, false⟩)
  , ("SGD", ⟨"S$", "Singapore Dollar", true, false⟩)
  , ("HKD", ⟨"HK$", "Hong Kong Dollar", true, false⟩)
  , ("NOK", ⟨"kr", "Norwegian Krone", false, true⟩)
  , ("INR", ⟨"₹", "Indian Rupee", true, false⟩)
  , ("BRL", ⟨"R$", "Brazilian Real", true, false⟩)
  , ("ZAR", ⟨"R", "South African Rand", true, false⟩)
  , ("RUB", ⟨"₽", "Russian Ruble", false, true⟩) ]

/-- Lookup in an association list keyed by strings. -/
def lookupStr {α : Type} (l : List (String × α)) (k : String) : Option α :=
  (l.find? (fun p => p.1 == k)).map Prod.snd

/-- ASCII upper-casing, the effect of toUpperCase on the codes involved. -/
def toUpperS (s : String) : String :=
  String.mk (s.data.map Char.toUpper)

/-- Decimal digits of a natural number, most significant first. -/
def natDigits (n : Nat) : List Char :=
  (Nat.repr n).data

/-- Indian digit grouping for the integer part: the last three digits form
the final group, the remaining digits are grouped in twos from the right,
groups separated by commas (the en-IN locale of Intl.NumberFormat). -/
def groupTwosAux : Nat → List Char → List Char
  | _, [] => []
  | 0, l => l
  | fuel + 1, l =>
    if l.length ≤ 2 then l
    else groupTwosAux fuel (l.take (l.length - 2)) ++ ',' :: l.drop (l.length - 2)

/-- Group a digit list in twos from the right. -/
def groupTwos (l : List Char) : List Char :=
  groupTwosAux l.length l

/-- en-IN grouping of an integer-part digit list. -/
def groupEnIN (l : List Char) : List Char :=
  if l.length ≤ 3 then l
  else groupTwos (l.take (l.length - 3)) ++ ',' :: l.drop (l.length - 3)

/-- Round the absolute value of a rational to dp decimal places, half
away from zero (the default rounding of Intl.NumberFormat), returning
the scaled natural number.  The floor of the absolute value times ten to
the dp plus one half is computed on the numerator and denominator by
natural division. -/
def roundHalfScaled (q : ℚ) (dp : Nat) : Nat :=
  (2 * q.num.natAbs * 10 ^ dp + q.den) / (2 * q.den)

/-- Left-pad a character list with a character up to a length. -/
def leftPad (c : Char) (n : Nat) (l : List Char) : List Char :=
  List.replicate (n - l.length) c ++ l

/-- The fixed-precision en-IN numeric formatting used by formatCurrency:
Intl.NumberFormat of the en-IN locale with minimum and maximum fraction
digits both equal to dp. -/
def intlFormatEnIN (q : ℚ) (dp : Nat) : String :=
  let neg := q.num < 0
  let n := roundHalfScaled q dp
  let ds := leftPad '0' (dp + 1) (natDigits n)
  let ip := ds.take (ds.length - dp)
  let fp := ds.drop (ds.length - dp)
  String.mk ((if neg then ['-'] else []) ++ groupEnIN ip ++
    (if dp = 0 then [] else '.' :: fp))

/-- formatCurrency of pdf.service.js: normalize the code (a falsy code,
modelled as the empty string, falls back to INR; then upper-case), treat a
NaN amount as zero, look up the configuration falling back to the INR
entry, pick zero decimals for JPY and KRW and two otherwise, and place the
configured symbol by position and spacing. -/
def formatCurrency (amount : Option ℚ) (currencyCode : String) : String :=
  let code := toUpperS (if currencyCode = "" then "INR" else currencyCode)
  let safeNumber := amount.getD 0
  let cfg := (lookupStr currencies code).getD ⟨"₹", "Indian Rupee", true, false⟩
  let decimalPlaces := if code = "JPY" || code = "KRW" then 0 else 2
  let formatted := intlFormatEnIN safeNumber decimalPlaces
  if cfg.posLeft then
    if cfg.spacing then cfg.symbol ++ " " ++ formatted
    else cfg.symbol ++ formatted
  else
    if cfg.spacing then formatted ++ " " ++ cfg.symbol
    else formatted ++ cfg.symbol

/-- The symbol table of formatCurrency in utils/currency.js (the second
formatter the repository ships). -/
def utilsCurrencySymbols : List (String × String) :=
  [ ("INR", "₹"), ("USD", "$"), ("EUR", "€"), ("GBP", "£"), ("JPY", "¥")
  , ("AUD", "A$"), ("CAD", "C$"), ("CHF", "CHF"), ("CNY", "¥"), ("SEK", "kr")
  , ("NZD", "NZ$"), ("MXN", "$"), ("SGD", "S$"), ("HKD", "HK$"), ("NOK", "kr")
  , ("BRL", "R$"), ("ZAR", "R"), ("RUB", "₽") ]

/-- roundToTwoDecimal of utils/currency.js on a valid number: Math.round
of one hundred times the value (round half toward positive infinity,
computed as a floored integer division on the numerator and denominator),
divided by one hundred.  The float epsilon nudge of the source is a
floating-point artifact not modelled on ℚ. -/
def roundToTwoDecimal (q : ℚ) : ℚ :=
  mkRat (Int.fdiv (2 * q.num * 100 + (q.den : Int)) (2 * (q.den : Int))) 100

/-- formatCurrency of utils/currency.js (src/unnamed/part_003): no case
normalization; the symbol of an unknown code is the code itself; always
two fraction digits, symbol on the left with no space. -/
def utilsFormatCurrency (amount : Option ℚ) (currency : String) : String :=
  let amt := amount.getD 0
  let symbol := (lookupStr utilsCurrencySymbols currency).getD currency
  symbol ++ intlFormatEnIN (roundToTwoDecimal amt) 2

/-! ## ExchangeRateCache: getExchangeRates of pdf.service.js

The cache is explicit state; the outcome of the axios fetch is an
environment input: some rates models a 2xx response whose body carries a
rates map, none models any failure (timeout, non-2xx, malformed body). -/

/-- The exchange-rate cache state of the PDFService instance. -/
structure RateCache where
  rates : List (String × ℚ)
  lastUpdated : Option Nat
deriving DecidableEq, Repr

/-- Cache validity in milliseconds (one hour). -/
def cacheValidityMs : Nat := 3600000

/-- convertRates of pdf.service.js: divide every rate by the new base
rate; an absent or zero (falsy) base rate returns the input unchanged. -/
def convertRates (rates : List (String × ℚ)) (newBase : String) :
    List (String × ℚ) :=
  match lookupStr rates newBase with
  | none => rates
  | some baseRate =>
    if baseRate = 0 then rates
    else rates.map (fun p => (p.1, p.2 / baseRate))

/-- The hardcoded fallback rate table of getExchangeRates. -/
def fallbackRates : List (String × ℚ) :=
  [ ("USD", 0.012), ("EUR", 0.011), ("GBP", 0.0096), ("JPY", 1.79)
  , ("AUD", 0.018), ("CAD", 0.016), ("CHF", 0.011), ("CNY", 0.086)
  , ("SEK", 0.13), ("NZD", 0.02), ("MXN", 0.21), ("SGD", 0.016)
  , ("HKD", 0.095), ("NOK", 0.13), ("INR", 1.0), ("BRL", 0.062)
  , ("ZAR", 0.22), ("RUB", 1.15) ]

/-- getExchangeRates of pdf.service.js as a state transformer.  Returns
the rate map handed to the caller, the updated cache, and whether a fetch
was attempted.  A non-null lastUpdated within the validity window is a
cache hit served without fetching; otherwise the fetch outcome either
updates the cache (success) or leaves it untouched and yields the
fallback table, converted unless the base is INR (failure). -/
def getExchangeRates (c : RateCache) (now : Nat) (baseCurrency : String)
    (fetch : Option (List (String × ℚ))) :
    List (String × ℚ) × RateCache × Bool :=
  let fresh :=
    match c.lastUpdated with
    | some t => decide (now - t < cacheValidityMs)
    | none => false
  if fresh then (c.rates, c, false)
  else
    match fetch with
    | some rs => (rs, { rates := rs, lastUpdated := some now }, true)
    | none =>
      ((if baseCurrency = "INR" then fallbackRates
        else convertRates fallbackRates baseCurrency), c, true)

/-! ## RetryingRenderPipeline: generatePurchaseOrderPDF of pdf.service.js

One call of generatePurchaseOrderPDF is modelled as a deterministic
interpreter over the mutable service state, driven by a script of attempt
outcomes supplied by the environment (where each real attempt can fail:
browser launch, the connected check, opening the page, or the later page
operations).  The exchange-rate fetch at the head of the call touches only
the cache modelled separately above and is omitted from this state. -/

/-- The mutable fields of the PDFService instance the pipeline reads and
writes, plus instrumentation counters: how many browser instances were
created (creations), how many were closed (browserCloses), and how many
pages were opened and closed. -/
structure PdfState where
  activePages : Nat
  browser : Option Nat
  browserConn : Bool
  browserDisc : Bool
  nextId : Nat
  creations : Nat
  browserCloses : Nat
  openedPages : Nat
  closedPages : Nat
deriving DecidableEq, Repr

/-- maxConcurrentPages of the PDFService constructor. -/
def maxConcurrentPages : Nat := 2

/-- maxRetries of the PDFService constructor. -/
def maxRetries : Nat := 3

/-- Outcome of one attempt of the retry loop, as injected by the
environment: success; initBrowser throwing (a launch failure); the browser
reporting itself not connected right after acquisition; newPage throwing
after the admission increment; or a later page operation (setContent or
pdf export) throwing after the page was opened. -/
inductive AttemptSpec where
  | ok
  | initFail (msg : String)
  | notConnected
  | pageOpenFail (msg : String)
  | pageFail (msg : String)

/-- The condition under which initBrowser creates a new browser: no cached
handle, a handle that is not connected, or the disconnected flag set. -/
def needsInit (s : PdfState) : Bool :=
  s.browser.isNone || !s.browserConn || s.browserDisc

/-- initBrowser on its success path: create a fresh browser when needed
(clearing the disconnected flag), otherwise return the cached one. -/
def acquireB (s : PdfState) : PdfState :=
  if needsInit s then
    { s with browser := some s.nextId, browserConn := true,
             browserDisc := false, nextId := s.nextId + 1,
             creations := s.creations + 1 }
  else s

/-- closeBrowser of pdf.service.js: when a handle is cached, close it,
null it and set the disconnected flag; otherwise do nothing. -/
def closeBrowserFn (s : PdfState) : PdfState :=
  match s.browser with
  | some _ =>
    { s with browser := none, browserConn := false, browserDisc := true,
             browserCloses := s.browserCloses + 1 }
  | none => s

/-- The error-message classification of the catch block: does the message
contain Target closed, Connection closed, or Protocol error? -/
def patternHit (msg : String) : Bool :=
  hasSubL "Target closed".data msg.data ||
  hasSubL "Connection closed".data msg.data ||
  hasSubL "Protocol error".data msg.data

/-- The catch block of the retry loop: close the page when one is open,
decrement activePages clamped at zero (the Math.max of the source, which
is natural-number subtraction here), and on a classified message close and
discard the cached browser and set the disconnected flag. -/
def catchStep (s : PdfState) (msg : String) (pageOpen : Bool) : PdfState :=
  let s1 := if pageOpen then { s with closedPages := s.closedPages + 1 } else s
  let s2 := { s1 with activePages := s1.activePages - 1 }
  if patternHit msg then
    { closeBrowserFn s2 with browserDisc := true }
  else s2

/-- One attempt of the retry loop body under an injected outcome. -/
def attemptRun (s : PdfState) : AttemptSpec → Except String Unit × PdfState
  | .ok =>
    let s1 := acquireB s
    let s2 := { s1 with activePages := s1.activePages + 1,
                        openedPages := s1.openedPages + 1 }
    (Except.ok (), { s2 with closedPages := s2.closedPages + 1,
                             activePages := s2.activePages - 1 })
  | .initFail msg =>
    let s1 := if needsInit s then { s with browserDisc := true } else s
    (Except.error msg, catchStep s1 msg false)
  | .notConnected =>
    let s1 := acquireB s
    let s2 := { s1 with browserConn := false }
    (Except.error "Browser is not connected",
     catchStep s2 "Browser is not connected" false)
  | .pageOpenFail msg =>
    let s1 := acquireB s
    let s2 := { s1 with activePages := s1.activePages + 1 }
    (Except.error msg, catchStep s2 msg false)
  | .pageFail msg =>
    let s1 := acquireB s
    let s2 := { s1 with activePages := s1.activePages + 1,
                        openedPages := s1.openedPages + 1 }
    (Except.error msg, catchStep s2 msg true)

/-- The terminal error message raised when the attempt budget is
exhausted, wrapping the last underlying message. -/
def exhaustedMsg (msg : String) : String :=
  "PDF generation failed after 3 attempts: " ++ msg

/-- The admission-rejection error message. -/
def concurrencyMsg (n : Nat) : String :=
  "Too many concurrent PDF operations (" ++ Nat.repr n ++ "/2)"

/-- The while loop of generatePurchaseOrderPDF: run attempts until one
succeeds or the budget is exhausted, wrapping the last failure message. -/
def pdfLoop (s : PdfState) (specs : List AttemptSpec) (attempt : Nat) :
    Except String Unit × PdfState :=
  match specs with
  | [] => (Except.error "no attempt performed", s)
  | sp :: rest =>
    match attemptRun s sp with
    | (Except.ok _, s1) => (Except.ok (), s1)
    | (Except.error msg, s1) =>
      if attempt + 1 ≥ maxRetries then (Except.error (exhaustedMsg msg), s1)
      else pdfLoop s1 rest (attempt + 1)

/-- generatePurchaseOrderPDF of pdf.service.js: reject at once when
activePages has reached maxConcurrentPages, otherwise run the retry
loop. -/
def generatePurchaseOrderPDF (s : PdfState) (specs : List AttemptSpec) :
    Except String Unit × PdfState :=
  if s.activePages ≥ maxConcurrentPages then
    (Except.error (concurrencyMsg s.activePages), s)
  else pdfLoop s specs 0

/-! ## RenderProcessManager: the initBrowser state machine

Concurrent callers of initBrowser interleave at await points only; every
synchronous segment of the source is one atomic event here.  The state
counts in-flight browser creations and live (launched, not yet closed or
crashed) browser handles; resolvedOk and resolvedFail hold creations whose
promise has settled but whose awaiting continuation inside initBrowser has
not yet resumed. -/

/-- Global state of the manager together with event counters. -/
structure MgrState where
  slot : Option Bool
  flag : Bool
  initing : Bool
  creating : Nat
  resolvedOk : Nat
  resolvedFail : Nat
  live : Nat
deriving DecidableEq, Repr

/-- Events of the manager: a caller entering the creation branch; the
creation promise settling; the awaiting continuation resuming (assigning
the browser and registering the disconnect handler, or rethrowing); the
browser crashing (the disconnected handler); a failing render discarding
the browser (closeBrowser plus the flag assignment in the catch of
generatePurchaseOrderPDF); a caller joining an in-flight initialization;
and a caller taking the fast path on a healthy cached handle. -/
inductive MgrEv where
  | startInit
  | resolveOk
  | resolveFail
  | finishOk
  | finishFail
  | crash
  | discardB
  | joinInit
  | fastGet

/-- Does the manager state require a fresh creation (the condition of the
second branch of initBrowser)? -/
def needsInitM (s : MgrState) : Bool :=
  s.slot.isNone || s.slot == some false || s.flag

/-- The guarded transition function of the manager: none when the event is
not enabled in the state. -/
def mgrStep (s : MgrState) : MgrEv → Option MgrState
  | .startInit =>
    if !s.initing && needsInitM s then
      some { s with initing := true, flag := false,
                    creating := s.creating + 1 }
    else none
  | .resolveOk =>
    if s.creating ≥ 1 then
      some { s with creating := s.creating - 1,
                    resolvedOk := s.resolvedOk + 1, live := s.live + 1 }
    else none
  | .resolveFail =>
    if s.creating ≥ 1 then
      some { s with creating := s.creating - 1,
                    resolvedFail := s.resolvedFail + 1 }
    else none
  | .finishOk =>
    if s.resolvedOk ≥ 1 then
      some { s with resolvedOk := s.resolvedOk - 1, initing := false,
                    slot := some true }
    else none
  | .finishFail =>
    if s.resolvedFail ≥ 1 then
      some { s with resolvedFail := s.resolvedFail - 1, initing := false,
                    flag := true }
    else none
  | .crash =>
    if s.slot == some true then
      some { s with slot := none, flag := true, live := s.live - 1 }
    else none
  | .discardB =>
    some { s with slot := none, flag := true,
                  live := s.live - (if s.slot == some true then 1 else 0) }
  | .joinInit => if s.initing then some s else none
  | .fastGet => if !s.initing && !needsInitM s then some s else none

/-- One step of the manager under some event. -/
def MgrStepR (s s' : MgrState) : Prop :=
  ∃ e, mgrStep s e = some s'

/-- Reachability in the manager's step relation. -/
def MgrReach : MgrState → MgrState → Prop :=
  Relation.ReflTransGen MgrStepR

/-- The initial state of a fresh PDFService: no browser, no flags, nothing
in flight. -/
def mgrInit : MgrState :=
  { slot := none, flag := false, initing := false, creating := 0,
    resolvedOk := 0, resolvedFail := 0, live := 0 }

/-- Run a list of manager events from a state, failing when an event is
not enabled. -/
def mgrRun (s : MgrState) : List MgrEv → Option MgrState
  | [] => some s
  | e :: rest =>
    match mgrStep s e with
    | some s1 => mgrRun s1 rest
    | none => none

/-- A reachable manager state in which two live browser handles coexist:
after a crash-triggered re-creation, a concurrent render failure sets the
disconnected flag while the creation is in flight, so the fresh handle is
stored with the flag still set and the next caller creates yet another
browser without the previous one being closed. -/
def mgrBad : MgrState :=
  { slot := some true, flag := false, initing := true, creating := 0,
    resolvedOk := 1, resolvedFail := 0, live := 2 }

/-- The event trace reaching mgrBad from mgrInit. -/
def mgrBadTrace : List MgrEv :=
  [.startInit, .resolveOk, .finishOk, .crash, .startInit, .resolveOk,
   .discardB, .finishOk, .startInit, .resolveOk]

/-- The invariant establishing the single-in-flight-creation guarantee:
at most one creation is pending or settled-but-unfinished, and while one
is, the manager is in its Initializing state. -/
def MgrInv (s : MgrState) : Prop :=
  s.creating + s.resolvedOk + s.resolvedFail ≤ 1 ∧
  (s.creating + s.resolvedOk + s.resolvedFail = 1 → s.initing = true)

/-! ## Clean strings, for the idempotence contract of the normalizer -/

/-- Is the first character (if any) outside the class? -/
def headOk (p : Char → Bool) (l : List Char) : Bool :=
  match l with
  | [] => true
  | c :: _ => !p c

/-- Is the last character (if any) outside the class? -/
def lastOk (p : Char → Bool) (l : List Char) : Bool :=
  match l.getLast? with
  | none => true
  | some c => !p c

/-- Whitespace normal form: every whitespace character is a plain space
and no two whitespace characters are adjacent. -/
def wsOkL : List Char → Bool
  | [] => true
  | [c] => !charWs c || c = ' '
  | c1 :: c2 :: r =>
    (!charWs c1 || (c1 = ' ' && !charWs c2)) && wsOkL (c2 :: r)

/-- A clean term in the sense of the normalizer contract: non-empty, no
quote/bracket or quote/comma/space characters at either edge, no
whitespace at the edges, internally whitespace-normalized, no escaped
quote, and no numbered-list marker.  Such strings pass through every
stage of processTermsAndConditions unchanged. -/
def CleanTerm (s : String) : Bool :=
  let t := s.data
  !t.isEmpty &&
  headOk edgeQB t && lastOk edgeQB t &&
  headOk edgeFC t && lastOk edgeFC t &&
  headOk charWs t && lastOk charWs t &&
  wsOkL t && !hasMarker t && !hasSubL ['\\', '"'] t

/-! # Lemmas -/

theorem dropWhile_id (p : Char → Bool) (l : List Char)
    (h : headOk p l = true) : List.dropWhile p l = l := by
  cases l with
  | nil => rfl
  | cons c r =>
    simp only [headOk, Bool.not_eq_true'] at h
    exact List.dropWhile_cons_of_neg (by simp [h])

theorem rdropWhile_id (p : Char → Bool) (l : List Char)
    (h : lastOk p l = true) : List.rdropWhile p l = l := by
  apply List.rdropWhile_eq_self_iff.mpr
  intro hne
  have hg := List.getLast?_eq_getLast_of_ne_nil hne
  unfold lastOk at h
  rw [hg] at h
  simp only [Bool.not_eq_true'] at h
  simp [h]

theorem stripRuns_id (p : Char → Bool) (l : List Char)
    (h1 : headOk p l = true) (h2 : lastOk p l = true) :
    stripRuns p l = l := by
  unfold stripRuns
  rw [dropWhile_id p l h1]
  exact rdropWhile_id p l h2

theorem trimJs_id (l : List Char) (h1 : headOk charWs l = true)
    (h2 : lastOk charWs l = true) : trimJs l = l :=
  stripRuns_id charWs l h1 h2

theorem replSubAux_id (pat rep : List Char) :
    ∀ (fuel : Nat) (l : List Char), hasSubL pat l = false →
      replSubAux pat rep fuel l = l := by
  intro fuel
  induction fuel with
  | zero => intro l _; cases l <;> rfl
  | succ n ih =>
    intro l h
    cases l with
    | nil => rfl
    | cons c r =>
      simp only [hasSubL, Bool.or_eq_false_iff] at h
      obtain ⟨h1, h2⟩ := h
      simp [replSubAux, h1, ih r h2]

theorem replSubL_id (pat rep l : List Char)
    (h : hasSubL pat l = false) : replSubL pat rep l = l :=
  replSubAux_id pat rep l.length l h

theorem wsOkL_tail (c : Char) (r : List Char)
    (h : wsOkL (c :: r) = true) : wsOkL r = true := by
  cases r with
  | nil => rfl
  | cons c2 r2 =>
    simp only [wsOkL, Bool.and_eq_true] at h
    exact h.2

theorem collapseWs_id (l : List Char) (h : wsOkL l = true) :
    collapseWs l = l := by
  induction l with
  | nil => rfl
  | cons c r ih =>
    have hr := wsOkL_tail c r h
    have ihr := ih hr
    show collapseStep c (collapseWs r) = c :: r
    rw [ihr]
    by_cases hws : charWs c = true
    · cases r with
      | nil =>
        have hc : c = ' ' := by
          simp only [wsOkL, hws, Bool.not_true, Bool.false_or] at h
          simpa using h
        simp [collapseStep, hws, hc]
      | cons c2 r2 =>
        have hc : c = ' ' ∧ charWs c2 = false := by
          simp only [wsOkL, hws, Bool.not_true, Bool.false_or,
            Bool.and_eq_true, Bool.not_eq_true'] at h
          exact ⟨by simpa using h.1.1, h.1.2⟩
        have hc2 : ¬(c2 = ' ') := by
          intro he
          rw [he] at hc
          simp [charWs] at hc
        simp [collapseStep, hws, hc.1, hc2]
    · simp [collapseStep, hws]

theorem cleanTerm_unpack (s : String) (h : CleanTerm s = true) :
    s.data ≠ [] ∧ headOk edgeQB s.data = true ∧ lastOk edgeQB s.data = true ∧
    headOk edgeFC s.data = true ∧ lastOk edgeFC s.data = true ∧
    headOk charWs s.data = true ∧ lastOk charWs s.data = true ∧
    wsOkL s.data = true ∧ hasMarker s.data = false ∧
    hasSubL ['\\', '"'] s.data = false := by
  unfold CleanTerm at h
  simp only [Bool.and_eq_true] at h
  obtain ⟨⟨⟨⟨⟨⟨⟨⟨⟨h0, h1⟩, h2⟩, h3⟩, h4⟩, h5⟩, h6⟩, h7⟩, h8⟩, h9⟩ := h
  refine ⟨?_, h1, h2, h3, h4, h5, h6, h7, ?_, ?_⟩
  · intro hnil
    rw [hnil] at h0
    simp at h0
  · simpa using h8
  · simpa using h9

theorem cleanArrTerm_clean (s : String) (h : CleanTerm s = true) :
    cleanArrTerm s.data = s.data := by
  obtain ⟨_, hqb1, hqb2, _, _, hws1, hws2, _, _, hsub⟩ := cleanTerm_unpack s h
  unfold cleanArrTerm
  rw [stripRuns_id edgeQB s.data hqb1 hqb2, replSubL_id _ _ _ hsub,
    trimJs_id s.data hws1 hws2]

theorem termContribution_clean (s : String) (h : CleanTerm s = true) :
    termContribution s.data = [s.data] := by
  obtain ⟨hne, _, _, _, _, hws1, hws2, _, hmk, _⟩ := cleanTerm_unpack s h
  have htrim : trimJs s.data = s.data := trimJs_id s.data hws1 hws2
  have hlen : (trimJs s.data).length > 0 := by
    rw [htrim]
    exact List.length_pos.mpr hne
  unfold termContribution
  rw [if_pos hlen, cleanArrTerm_clean s h]
  simp [hmk]

theorem finalClean_clean (s : String) (h : CleanTerm s = true) :
    finalClean s.data = s.data := by
  obtain ⟨_, _, _, hfc1, hfc2, hws1, hws2, hwsn, _, _⟩ := cleanTerm_unpack s h
  unfold finalClean
  rw [stripRuns_id edgeFC s.data hfc1 hfc2, collapseWs_id s.data hwsn,
    trimJs_id s.data hws1 hws2]

theorem processTerms_clean (ts : List String)
    (h : ∀ t ∈ ts, CleanTerm t = true) :
    processTermsAndConditions ts = ts := by
  induction ts with
  | nil => rfl
  | cons t ts ih =>
    have ht : CleanTerm t = true := h t (List.mem_cons_self t ts)
    have hts : ∀ u ∈ ts, CleanTerm u = true :=
      fun u hu => h u (List.mem_cons_of_mem t hu)
    have hne : t.data ≠ [] := (cleanTerm_unpack t ht).1
    have ihe := ih hts
    simp only [processTermsAndConditions, List.map_cons, List.flatten_cons] at ihe ⊢
    rw [termContribution_clean t ht]
    simp only [List.singleton_append, List.map_cons, List.filter_cons,
      finalClean_clean t ht]
    rw [if_pos (by simpa using List.length_pos.mpr hne)]
    simp only [List.map_cons, List.cons.injEq]
    exact ⟨trivial, ihe⟩

theorem closeBrowserFn_browser (s : PdfState) :
    (closeBrowserFn s).browser = none := by
  cases hb : s.browser <;> simp [closeBrowserFn, hb]

theorem catch_hit (s : PdfState) (msg : String) (pageOpen : Bool)
    (h : patternHit msg = true) :
    (catchStep s msg pageOpen).browser = none ∧
    (catchStep s msg pageOpen).browserDisc = true := by
  cases pageOpen <;> cases hb : s.browser <;>
    simp [catchStep, h, closeBrowserFn, hb]

theorem catch_miss (s : PdfState) (msg : String) (pageOpen : Bool)
    (h : patternHit msg = false) :
    (catchStep s msg pageOpen).browser = s.browser ∧
    (catchStep s msg pageOpen).browserDisc = s.browserDisc ∧
    (catchStep s msg pageOpen).creations = s.creations := by
  cases pageOpen <;> simp [catchStep, h]

theorem mgrRun_reach :
    ∀ (evs : List MgrEv) (s sf : MgrState), mgrRun s evs = some sf →
      MgrReach s sf := by
  intro evs
  induction evs with
  | nil =>
    intro s sf h
    simp only [mgrRun, Option.some.injEq] at h
    rw [h]
    exact Relation.ReflTransGen.refl
  | cons e rest ih =>
    intro s sf h
    unfold mgrRun at h
    cases he : mgrStep s e with
    | none => rw [he] at h; simp at h
    | some s1 =>
      rw [he] at h
      exact Relation.ReflTransGen.head ⟨e, he⟩ (ih s1 sf h)

theorem mgrInv_step (s s' : MgrState) (hInv : MgrInv s)
    (hstep : MgrStepR s s') : MgrInv s' := by
  obtain ⟨i1, i2⟩ := hInv
  obtain ⟨e, he⟩ := hstep
  cases e <;> simp only [mgrStep] at he
  case startInit =>
    split at he
    case isTrue hc =>
      have hin : s.initing = false := by
        simp only [Bool.and_eq_true, Bool.not_eq_true'] at hc
        exact hc.1
      have hsum : s.creating + s.resolvedOk + s.resolvedFail = 0 := by
        rcases Nat.lt_or_ge (s.creating + s.resolvedOk + s.resolvedFail) 1 with h1 | h1
        · omega
        · have := i2 (by omega)
          rw [hin] at this
          cases this
      cases he
      exact ⟨by simp; omega, by simp⟩
    case isFalse => cases he
  case resolveOk =>
    split at he
    case isTrue hc =>
      cases he
      refine ⟨by simp; omega, ?_⟩
      intro h1
      simp at h1
      exact i2 (by omega)
    case isFalse => cases he
  case resolveFail =>
    split at he
    case isTrue hc =>
      cases he
      refine ⟨by simp; omega, ?_⟩
      intro h1
      simp at h1
      exact i2 (by omega)
    case isFalse => cases he
  case finishOk =>
    split at he
    case isTrue hc =>
      cases he
      refine ⟨by simp; omega, ?_⟩
      intro h1
      simp at h1
      omega
    case isFalse => cases he
  case finishFail =>
    split at he
    case isTrue hc =>
      cases he
      refine ⟨by simp; omega, ?_⟩
      intro h1
      simp at h1
      omega
    case isFalse => cases he
  case crash =>
    split at he
    case isTrue hc =>
      cases he
      exact ⟨by simpa using i1, fun h1 => i2 (by simpa using h1)⟩
    case isFalse => cases he
  case discardB =>
    cases he
    exact ⟨by simpa using i1, fun h1 => i2 (by simpa using h1)⟩
  case joinInit =>
    split at he
    case isTrue hc =>
      cases he
      exact ⟨i1, i2⟩
    case isFalse => cases he
  case fastGet =>
    split at he
    case isTrue hc =>
      cases he
      exact ⟨i1, i2⟩
    case isFalse => cases he

/-! # Claim theorems -/

/-- Claim C9: the terms-and-conditions section is forced onto a new page
if and only if the number of line items exceeds 8; exactly 8 items keep
the terms on the same page and 9 items force a new page. -/
theorem C9_pagination_threshold : ∀ n : Nat,
    (shouldBreakPage n = true ↔ 8 < n) ∧
    shouldBreakPage 8 = false ∧ shouldBreakPage 9 = true ∧
    termsSectionClass 8 = "" ∧ termsSectionClass 9 = "new-page" := by
  intro n
  refine ⟨?_, rfl, rfl, rfl, rfl⟩
  unfold shouldBreakPage
  split
  · simp; omega
  · simp; omega

/-- Claim C7 counterexample: processTermsAndConditions does not preserve
non-empty text preceding the first numbered marker; on the input
consisting of the single string Intro 1. First it returns only First,
dropping Intro, contrary to the claim. -/
theorem C7_counterexample :
    processTermsAndConditions ["Intro 1. First"] ≠ ["Intro", "First"] ∧
    processTermsAndConditions ["Intro 1. First"] = ["First"] := by
  constructor
  · decide
  · rfl

/-- Claim C7 (amended): on a cleaned string containing the numbered-list
marker pattern, the string is split on that pattern and the first segment
is discarded unconditionally, whether empty or not, so text preceding the
first marker is dropped; the remaining segments, trimmed and filtered
non-empty, become the terms.  In particular the normalizer maps the
single string 1. First term 2. Second term to the two terms First term
and Second term. -/
theorem C7_amended :
    processTermsAndConditions ["1. First term 2. Second term"] =
      ["First term", "Second term"] ∧
    processTermsAndConditions ["Intro 1. First"] = ["First"] ∧
    ∀ t : List Char, 0 < (trimJs t).length →
      hasMarker (cleanArrTerm t) = true →
      1 < (splitMarkers (cleanArrTerm t)).length →
      termContribution t =
        (((splitMarkers (cleanArrTerm t)).drop 1).map trimJs).filter
          (fun x => x.length > 0) := by
  refine ⟨rfl, rfl, ?_⟩
  intro t h1 h2 h3
  unfold termContribution
  rw [if_pos h1]
  simp only [h2, if_true]
  rw [if_pos h3]

/-- Claim C7 amended witness: the general split-and-discard description
evaluated at the concrete input Intro 1. First. -/
theorem C7_amended_witness :
    termContribution "Intro 1. First".data =
      (((splitMarkers (cleanArrTerm "Intro 1. First".data)).drop 1).map
          trimJs).filter (fun x => x.length > 0) :=
  C7_amended.2.2 "Intro 1. First".data (by decide) (by decide) (by decide)

/-- Claim C8 counterexample: the normalizer is not idempotent on every
array of strings.  On the single string 1. a] 2. b the first pass yields
the terms a] and b (the bracket survives, because edge bracket stripping
happens before marker splitting and the final cleanup strips no
brackets), while the second pass strips the bracket and yields a and b. -/
theorem C8_counterexample :
    processTermsAndConditions (processTermsAndConditions ["1. a] 2. b"]) ≠
      processTermsAndConditions ["1. a] 2. b"] ∧
    processTermsAndConditions ["1. a] 2. b"] = ["a]", "b"] ∧
    processTermsAndConditions ["a]", "b"] = ["a", "b"] := by
  refine ⟨?_, rfl, rfl⟩
  decide

/-- Claim C8 (amended): the normalizer is idempotent on arrays of clean
strings, as the contract qualifies: when every element is non-empty, free
of edge quote/bracket/comma/space characters, whitespace-normalized, free
of escaped quotes and of numbered-list markers, the normalizer is the
identity, hence applying it twice equals applying it once.  On general
arrays idempotence fails. -/
theorem C8_amended : ∀ ts : List String, (∀ t ∈ ts, CleanTerm t = true) →
    processTermsAndConditions (processTermsAndConditions ts) =
      processTermsAndConditions ts := by
  intro ts h
  rw [processTerms_clean ts h, processTerms_clean ts h]

/-- Claim C8 amended witness: idempotence evaluated on a concrete clean
array. -/
theorem C8_amended_witness :
    processTermsAndConditions (processTermsAndConditions
        ["Payment due within agreed credit period", "Goods once sold"]) =
      processTermsAndConditions
        ["Payment due within agreed credit period", "Goods once sold"] :=
  C8_amended ["Payment due within agreed credit period", "Goods once sold"]
    (by decide)

/-- Claim C6 counterexample: formatCurrency of pdf.service.js does not
keep the original code as the literal symbol for unknown codes; the code
xyz (unknown after upper-casing) is formatted with the INR fallback
symbol, and neither xyz nor XYZ occurs in the output. -/
theorem C6_counterexample :
    formatCurrency (some 5) "xyz" = "₹5.00" ∧
    hasSubL "xyz".data "₹5.00".data = false ∧
    hasSubL "XYZ".data "₹5.00".data = false := by
  decide

/-- Claim C6 (amended): formatCurrency of pdf.service.js upper-cases the
code before lookup, and an unknown upper-cased code falls back to the
whole INR configuration including its display symbol, so the original
code does not appear in the output; the separate formatCurrency of
utils/currency.js keeps the original code as the literal symbol for
unknown codes but performs no case normalization. -/
theorem C6_amended : ∀ (amt : Option ℚ) (code : String),
    lookupStr currencies (toUpperS (if code = "" then "INR" else code)) =
      none →
    (formatCurrency amt code = "₹" ++ intlFormatEnIN (amt.getD 0)
        (if toUpperS (if code = "" then "INR" else code) = "JPY" ||
            toUpperS (if code = "" then "INR" else code) = "KRW"
         then 0 else 2)) ∧
    formatCurrency (some (mkRat 2469 2)) "eur" =
      formatCurrency (some (mkRat 2469 2)) "EUR" ∧
    utilsFormatCurrency (some 5) "XYZ" = "XYZ5.00" ∧
    utilsFormatCurrency (some 5) "usd" = "usd5.00" := by
  intro amt code h
  refine ⟨?_, by decide, by decide, by decide⟩
  unfold formatCurrency
  simp [h]

/-- Claim C6 amended witness: the INR-configuration fallback evaluated at
the concrete unknown code xyz. -/
theorem C6_amended_witness :
    formatCurrency (some 5) "xyz" = "₹" ++ intlFormatEnIN 5 2 := by
  have h := (C6_amended (some 5) "xyz" (by decide)).1
  simpa using h

/-- Claim C5: getExchangeRates serves the cached map without fetching
within one hour of a successful fetch, fetches after expiry, and on a
failed fetch returns the fallback table (converted unless the base is
INR) without touching the cached rates or timestamp, so the very next
call attempts a live fetch again. -/
theorem C5_cache_contract : ∀ (c : RateCache) (now now2 t : Nat)
    (base base2 : String) (f f2 : Option (List (String × ℚ))),
    (c.lastUpdated = some t → now - t < cacheValidityMs →
      getExchangeRates c now base f = (c.rates, c, false)) ∧
    (c.lastUpdated = some t → cacheValidityMs ≤ now - t →
      (getExchangeRates c now base f).2.2 = true) ∧
    (c.lastUpdated = none → (getExchangeRates c now base f).2.2 = true) ∧
    (c.lastUpdated = some t → cacheValidityMs ≤ now - t → f = none →
      getExchangeRates c now base f =
        ((if base = "INR" then fallbackRates
          else convertRates fallbackRates base), c, true) ∧
      (now ≤ now2 → (getExchangeRates c now2 base2 f2).2.2 = true)) ∧
    (c.lastUpdated = none → f = none →
      getExchangeRates c now base f =
        ((if base = "INR" then fallbackRates
          else convertRates fallbackRates base), c, true) ∧
      (getExchangeRates c now2 base2 f2).2.2 = true) := by
  intro c now now2 t base base2 f f2
  refine ⟨?_, ?_, ?_, ?_, ?_⟩
  · intro hlu hfr
    simp [getExchangeRates, hlu, hfr]
  · intro hlu hexp
    have hm : ¬(now - t < cacheValidityMs) := by omega
    cases f <;> simp [getExchangeRates, hlu, hm]
  · intro hlu
    cases f <;> simp [getExchangeRates, hlu]
  · intro hlu hexp hf
    have hm : ¬(now - t < cacheValidityMs) := by omega
    refine ⟨by simp [getExchangeRates, hlu, hm, hf], ?_⟩
    intro hle
    have hm2 : ¬(now2 - t < cacheValidityMs) := by omega
    cases f2 <;> simp [getExchangeRates, hlu, hm2]
  · intro hlu hf
    refine ⟨by simp [getExchangeRates, hlu, hf], ?_⟩
    cases f2 <;> simp [getExchangeRates, hlu]

/-- Claim C5 witness: the contract evaluated at a concrete cache, a hit
one millisecond before expiry, and a failed fetch exactly at expiry
followed by another fetch attempt. -/
theorem C5_cache_contract_witness :
    getExchangeRates ⟨[("USD", 2)], some 0⟩ 3599999 "INR" none =
      ([("USD", 2)], ⟨[("USD", 2)], some 0⟩, false) ∧
    getExchangeRates ⟨[("USD", 2)], some 0⟩ 3600000 "INR" none =
      (fallbackRates, ⟨[("USD", 2)], some 0⟩, true) ∧
    (getExchangeRates ⟨[("USD", 2)], some 0⟩ 3600001 "USD" none).2.2 =
      true := by
  have h1 := (C5_cache_contract ⟨[("USD", 2)], some 0⟩ 3599999 3600001 0
    "INR" "USD" none none).1 rfl (by decide)
  have h4 := (C5_cache_contract ⟨[("USD", 2)], some 0⟩ 3600000 3600001 0
    "INR" "USD" none none).2.2.2.1 rfl (by decide) rfl
  exact ⟨h1, by simpa using h4.1, h4.2 (by decide)⟩

/-- Claim C10: the cache-hit test checks only the snapshot age, never the
base currency it was fetched for; a successful fetch for one base
followed within the TTL by a call for a different base returns the first
base's map unchanged and performs no fetch. -/
theorem C10_base_ignored : ∀ (c : RateCache) (now now2 : Nat)
    (b1 b2 : String) (r : List (String × ℚ))
    (f2 : Option (List (String × ℚ))),
    c.lastUpdated = none → now2 - now < cacheValidityMs → b1 ≠ b2 →
    (getExchangeRates c now b1 (some r)).1 = r ∧
    (getExchangeRates c now b1 (some r)).2.1 = ⟨r, some now⟩ ∧
    getExchangeRates ⟨r, some now⟩ now2 b2 f2 =
      (r, ⟨r, some now⟩, false) := by
  intro c now now2 b1 b2 r f2 hlu hfr _
  refine ⟨?_, ?_, ?_⟩
  · simp [getExchangeRates, hlu]
  · simp [getExchangeRates, hlu]
  · simp [getExchangeRates, hfr]

/-- Claim C10 witness: a USD-based second call within the TTL served the
INR-based snapshot of the first call. -/
theorem C10_base_ignored_witness :
    (getExchangeRates ⟨[], none⟩ 1000 "INR" (some [("EUR", 3)])).1 =
      [("EUR", 3)] ∧
    getExchangeRates ⟨[("EUR", 3)], some 1000⟩ 2000 "USD" none =
      ([("EUR", 3)], ⟨[("EUR", 3)], some 1000⟩, false) := by
  have h := C10_base_ignored ⟨[], none⟩ 1000 2000 "INR" "USD"
    [("EUR", 3)] none rfl (by decide) (by decide)
  exact ⟨h.1, h.2.2⟩

/-- Claim C1: when all three attempts fail, generatePurchaseOrderPDF
raises the terminal error wrapping the last cause; but the admission
counter is not always restored to its pre-call value: an attempt failing
during browser acquisition, before the per-attempt increment, still runs
the clamped decrement of the catch block, so with one concurrent slot
holder the counter ends at 0 instead of 1.  This theorem evaluates the
pipeline at that failing input. -/
theorem C1_exhaustion_counter_divergence :
    (generatePurchaseOrderPDF ⟨1, none, false, false, 0, 0, 0, 0, 0⟩
        [.initFail "Failed to launch the browser process",
         .initFail "Failed to launch the browser process",
         .initFail "Failed to launch the browser process"]).1 =
      Except.error (exhaustedMsg "Failed to launch the browser process") ∧
    (generatePurchaseOrderPDF ⟨1, none, false, false, 0, 0, 0, 0, 0⟩
        [.initFail "Failed to launch the browser process",
         .initFail "Failed to launch the browser process",
         .initFail "Failed to launch the browser process"]).2.activePages
      = 0 ∧
    (⟨1, none, false, false, 0, 0, 0, 0, 0⟩ : PdfState).activePages = 1 ∧
    (0 : Nat) ≠ 1 := by
  refine ⟨rfl, rfl, rfl, by decide⟩

/-- Claim C2: a failed attempt whose message contains Target closed,
Connection closed or Protocol error discards the cached browser handle
(null and flagged disconnected) so the next acquire recreates it; one
such failure followed by a success returns PDF bytes with exactly one
re-creation; a failure matching no pattern keeps the handle. -/
theorem C2_classified_recreation : ∀ (s : PdfState) (m1 m2 : String),
    patternHit m1 = true → patternHit m2 = false →
    ((attemptRun s (.pageFail m1)).2.browser = none ∧
     (attemptRun s (.pageFail m1)).2.browserDisc = true) ∧
    ((attemptRun s (.pageFail m2)).2.browser = (acquireB s).browser ∧
     (attemptRun s (.pageFail m2)).2.browserDisc = (acquireB s).browserDisc ∧
     (attemptRun s (.pageFail m2)).2.creations = (acquireB s).creations) ∧
    generatePurchaseOrderPDF ⟨0, some 0, true, false, 1, 0, 0, 0, 0⟩
        [.pageFail "Protocol error (Page.printToPDF): Target closed", .ok] =
      (Except.ok (), ⟨0, some 1, true, false, 2, 1, 1, 2, 2⟩) := by
  intro s m1 m2 h1 h2
  refine ⟨?_, ?_, rfl⟩
  · exact catch_hit _ m1 true h1
  · exact catch_miss _ m2 true h2

/-- Claim C2 witness: the classification evaluated at a live handle, a
Target closed failure and an unclassified failure. -/
theorem C2_classified_recreation_witness :
    ((attemptRun ⟨0, some 5, true, false, 6, 0, 0, 0, 0⟩
        (.pageFail "x Target closed")).2.browser = none ∧
     (attemptRun ⟨0, some 5, true, false, 6, 0, 0, 0, 0⟩
        (.pageFail "x Target closed")).2.browserDisc = true) ∧
    (attemptRun ⟨0, some 5, true, false, 6, 0, 0, 0, 0⟩
        (.pageFail "boring")).2.browser =
      (acquireB ⟨0, some 5, true, false, 6, 0, 0, 0, 0⟩).browser := by
  have h := C2_classified_recreation ⟨0, some 5, true, false, 6, 0, 0, 0, 0⟩
    "x Target closed" "boring" (by decide) (by decide)
  exact ⟨h.1, h.2.1.1⟩

/-- Claim C3: with maxConcurrentPages 2, a call arriving while the
counter is at capacity is rejected at once with the concurrency error and
the state untouched (no retry, no queueing); a call arriving after a slot
is released proceeds into the retry loop, and concretely succeeds. -/
theorem C3_admission : ∀ (s : PdfState) (specs : List AttemptSpec),
    (maxConcurrentPages ≤ s.activePages →
      generatePurchaseOrderPDF s specs =
        (Except.error (concurrencyMsg s.activePages), s)) ∧
    (s.activePages < maxConcurrentPages →
      generatePurchaseOrderPDF s specs = pdfLoop s specs 0) ∧
    generatePurchaseOrderPDF ⟨1, some 0, true, false, 1, 0, 0, 0, 0⟩ [.ok] =
      (Except.ok (), ⟨1, some 0, true, false, 1, 0, 0, 1, 1⟩) := by
  intro s specs
  refine ⟨?_, ?_, rfl⟩
  · intro h
    unfold generatePurchaseOrderPDF
    rw [if_pos h]
  · intro h
    unfold generatePurchaseOrderPDF
    rw [if_neg (by omega)]

/-- Claim C3 witness: a third concurrent call rejected at capacity 2, and
the same call admitted after one slot is released. -/
theorem C3_admission_witness :
    generatePurchaseOrderPDF ⟨2, some 0, true, false, 1, 0, 0, 0, 0⟩ [.ok] =
      (Except.error (concurrencyMsg 2),
       ⟨2, some 0, true, false, 1, 0, 0, 0, 0⟩) ∧
    generatePurchaseOrderPDF ⟨1, some 0, true, false, 1, 0, 0, 0, 0⟩ [.ok] =
      (Except.ok (), ⟨1, some 0, true, false, 1, 0, 0, 1, 1⟩) := by
  have h := C3_admission ⟨2, some 0, true, false, 1, 0, 0, 0, 0⟩ [.ok]
  exact ⟨h.1 (by decide), h.2.2⟩

/-- Claim C4 counterexample: not every reachable interleaving keeps at
most one live browser handle.  After a crash forces a re-creation, a
concurrent render failure sets the disconnected flag while the creation
is in flight; the fresh handle is then stored with the flag still set, so
the next caller starts another creation and two live handles coexist. -/
theorem C4_counterexample : MgrReach mgrInit mgrBad ∧ mgrBad.live = 2 := by
  refine ⟨mgrRun_reach mgrBadTrace mgrInit mgrBad ?_, rfl⟩
  decide

/-- Claim C4 (amended): in every reachable interleaving of the manager's
step relation, at most one browser creation is in flight at any time;
a caller that observes the Initializing state joins the in-flight
initialization instead of starting a second creation.  The stronger
claim that at most one live handle exists process-wide fails (see the
counterexample). -/
theorem C4_single_creation : ∀ s : MgrState, MgrReach mgrInit s →
    s.creating ≤ 1 := by
  intro s h
  have hInv : MgrInv s := by
    induction h with
    | refl => exact ⟨by simp [mgrInit], by simp [mgrInit]⟩
    | tail _ hstep ih => exact mgrInv_step _ _ ih hstep
  have := hInv.1
  omega

/-- Claim C4 amended witness: the single-creation bound evaluated at the
initial state. -/
theorem C4_single_creation_witness : mgrInit.creating ≤ 1 :=
  C4_single_creation mgrInit Relation.ReflTransGen.refl

end Billing
